import Mathlib

/-!
Verification development for the Cloudant monitoring agent check
(src/cloudant.py).  The check polls the Cloudant monitoring REST API,
de-duplicates datapoints against a process-lifetime ledger of
last-recorded epochs (self.last_timestamps), and forwards fresh
datapoints as gauge metrics.  This file gives a shallow embedding of
the ledger, of record_data / _should_record_data, of check_connection,
get_status_code_data and the check entry point, and proves or refutes
the specification's claims about them.

Conventions: Python's mutable dict self.last_timestamps becomes an
association list threaded through the functions; Python ints become
Int; a JSON null datapoint value becomes Option Int; exceptions become
Except; emitted gauges and service checks are collected in lists.
-/

/-- The dedup ledger: the embedding of `self.last_timestamps`, a dict
from metric-name key to last-recorded epoch. -/
abbrev Ledger := List (String × Int)

/-- Dict lookup: `self.last_timestamps.get(tag, None)`. -/
def ledgerLookup : Ledger → String → Option Int
  | [], _ => none
  | (k, v) :: rest, tag => if k = tag then some v else ledgerLookup rest tag

/-- Dict assignment: `self.last_timestamps[tag] = epoch`. -/
def ledgerInsert : Ledger → String → Int → Ledger
  | [], tag, epoch => [(tag, epoch)]
  | (k, v) :: rest, tag, epoch =>
      if k = tag then (tag, epoch) :: rest else (k, v) :: ledgerInsert rest tag epoch

/-- The keys present in the ledger. -/
def ledgerKeys (l : Ledger) : List String := l.map Prod.fst

/-- One gauge emission: `self.gauge(metric_name, value, tags=metric_tags,
timestamp=epoch)`. -/
structure Gauge where
  name : String
  value : Int
  tags : List String
  timestamp : Int
  deriving DecidableEq

/-- One datapoint `[value, epoch]` of a target response; a JSON null
value is `none`. -/
structure Datapoint where
  value : Option Int
  epoch : Int
  deriving DecidableEq

/-- One element of `data['target_responses']`. -/
structure TargetResponse where
  target : String
  datapoints : List Datapoint
  deriving DecidableEq

/-- The stats response body: `{end: epoch, target_responses: [...]}`.
The field `end` is a Lean keyword, hence `endEpoch` (the source binds
it to the variable `end_epoch`). -/
structure StatsData where
  endEpoch : Int
  target_responses : List TargetResponse
  deriving DecidableEq

/-- Embedding of `_should_record_data(self, tag, epoch)`:
`last_ts = self.last_timestamps.get(tag, None); return not last_ts or
last_ts < epoch`.  Note `not last_ts` is Python truthiness: it is true
both when the key is absent (None) and when the stored epoch is 0. -/
def should_record_data (last_timestamps : Ledger) (tag : String) (epoch : Int) : Bool :=
  match ledgerLookup last_timestamps tag with
  | none => true
  | some last_ts => decide (last_ts = 0) || decide (last_ts < epoch)

/-- The body of the inner `for datapoint in datapoints` loop of
`record_data`: unpack `value, epoch`, and when the value is not None
and `_should_record_data(metric_name, epoch)` holds, set
`self.last_timestamps[metric_name] = epoch` and emit the gauge. -/
def recordDatapoint (metric_name : String) (metric_tags : List String)
    (st : Ledger × List Gauge) (dp : Datapoint) : Ledger × List Gauge :=
  match dp.value with
  | none => st
  | some v =>
      if should_record_data st.1 metric_name dp.epoch then
        (ledgerInsert st.1 metric_name dp.epoch,
         st.2 ++ [⟨metric_name, v, metric_tags, dp.epoch⟩])
      else st

/-- The body of the outer `for response in data['target_responses']`
loop: derive `metric_name = '.'.join([pfx, stat_name_fn(target)])` and
process the response's datapoints. -/
def recordTarget (pfx : String) (stat_name_fn : String → String)
    (metric_tags : List String) (st : Ledger × List Gauge)
    (response : TargetResponse) : Ledger × List Gauge :=
  response.datapoints.foldl
    (recordDatapoint (pfx ++ "." ++ stat_name_fn response.target) metric_tags) st

/-- Embedding of `record_data(self, data, endpoint_name, stat_name_fn, tags=None)`.
The batch gate: with `pfx = '.'.join(['cloudant', endpoint_name])`, if
`not _should_record_data(pfx, data['end'])` the call returns at once
("Skipping old data").  Otherwise both loops run; `metric_tags = tags
or []`.  The method mutates `self.last_timestamps` and emits gauges,
so the embedding returns the new ledger and the emitted gauges in
order. -/
def record_data (last_timestamps : Ledger) (data : StatsData) (endpoint_name : String)
    (stat_name_fn : String → String) (tags : Option (List String)) :
    Ledger × List Gauge :=
  let pfx := "cloudant." ++ endpoint_name
  if should_record_data last_timestamps pfx data.endEpoch then
    data.target_responses.foldl
      (recordTarget pfx stat_name_fn (tags.getD [])) (last_timestamps, [])
  else
    (last_timestamps, [])

/-- Characters after the first space, if any space occurs. -/
def dropThroughFirstSpace : List Char → Option (List Char)
  | [] => none
  | c :: rest => if c = ' ' then some rest else dropThroughFirstSpace rest

/-- The target transform passed by `get_status_code_data`:
`lambda target: target.split(' ', 1)[-1]`, i.e. everything after the
first space, or the whole string when it has no space. -/
def stripFirstToken (target : String) : String :=
  match dropThroughFirstSpace target.toList with
  | some rest => String.mk rest
  | none => target

/-- The exceptions the check can see: `requests.exceptions.Timeout`,
`requests.exceptions.HTTPError` (raised by `raise_for_status` on a
non-2xx response), the TypeError raised by subscripting None, and any
other exception.  Each carries its rendered message. -/
inductive PyExn where
  | timeout (msg : String)
  | httpError (msg : String)
  | typeError (msg : String)
  | other (msg : String)
  deriving DecidableEq

/-- The service-check states `AgentCheck.OK` / `AgentCheck.CRITICAL`. -/
inductive SCStatus where
  | ok
  | critical
  deriving DecidableEq

/-- One emission of `self.service_check(name, status, tags=..., message=...)`. -/
structure ServiceCheck where
  name : String
  status : SCStatus
  tags : List String
  message : String
  deriving DecidableEq

/-- The constant `SERVICE_CHECK_NAME = 'cloudant.can_connect'`. -/
def SERVICE_CHECK_NAME : String := "cloudant.can_connect"

/-- Embedding of `URL_TEMPLATE.format(endpoint=..., **instance)`:
`https://{username}.cloudant.com/_api/v2/monitoring/{endpoint}?cluster={cluster}`. -/
def build_url (endpoint username cluster : String) : String :=
  "https://" ++ username ++ ".cloudant.com/_api/v2/monitoring/" ++ endpoint
    ++ "?cluster=" ++ cluster

/-- The message attached to the CRITICAL service check in each except
branch of `check_connection`: `"Request timeout: {url}, {e}"` for a
timeout, `str(e.message)` for an HTTPError, `str(e)` otherwise. -/
def criticalMessage (url : String) : PyExn → String
  | .timeout msg => "Request timeout: " ++ url ++ ", " ++ msg
  | .httpError msg => msg
  | .typeError msg => msg
  | .other msg => msg

/-- Embedding of `check_connection(self, instance, tags)`: try the uptime fetch;
on success emit an OK service check, on any exception emit a CRITICAL
service check with the error detail and re-raise.  The HTTP call is
abstracted by its outcome `fetch`; the embedding returns the emitted
service checks and the re-raised exception, if any. -/
def check_connection (url : String) (fetch : Except PyExn (Option StatsData))
    (tags : List String) : List ServiceCheck × Option PyExn :=
  match fetch with
  | .ok _ =>
      ([⟨SERVICE_CHECK_NAME, .ok, tags, "Connection to " ++ url ++ " was successful"⟩],
       none)
  | .error e =>
      ([⟨SERVICE_CHECK_NAME, .critical, tags, criticalMessage url e⟩], some e)

/-- What one tick's metrics path produces when it does not raise:
the updated ledger, the emitted gauges, and the warnings logged. -/
structure TickResult where
  last_timestamps : Ledger
  gauges : List Gauge
  warnings : List String
  deriving DecidableEq

/-- Wrapper of `record_data` as called on the raw fetch result: when `data` is
None, the very first statement `end_epoch = data['end']` raises
`TypeError: 'NoneType' object is not subscriptable`. -/
def record_data_py (last_timestamps : Ledger) (data : Option StatsData)
    (endpoint_name : String) (stat_name_fn : String → String)
    (tags : Option (List String)) : Except PyExn (Ledger × List Gauge) :=
  match data with
  | none => .error (.typeError "NoneType object is not subscriptable")
  | some d => .ok (record_data last_timestamps d endpoint_name stat_name_fn tags)

/-- Embedding of `get_status_code_data(self, instance, tags)` after the URL is
built: fetch `rate/status_code`; an HTTPError is caught, a warning is
logged and the method returns; any other exception propagates.  When
the fetch succeeds with `data is None` a warning is logged and — with
no `return` — control still falls through to
`record_data(data, 'status_code', lambda target: target.split(' ', 1)[-1], tags)`. -/
def get_status_code_data (last_timestamps : Ledger) (url : String)
    (fetch : Except PyExn (Option StatsData)) (tags : Option (List String)) :
    Except PyExn TickResult :=
  match fetch with
  | .error (.httpError _) =>
      .ok ⟨last_timestamps, [], ["Error reading data from URL: " ++ url]⟩
  | .error e => .error e
  | .ok data =>
      let warns := if data.isNone then ["No stats could be retrieved from " ++ url] else []
      match record_data_py last_timestamps data "status_code" stripFirstToken tags with
      | .error e => .error e
      | .ok (l, gs) => .ok ⟨l, gs, warns⟩

/-- An instance config with its required fields (`_validate_instance`
checks cluster, username, password are present) and the optional ones
the check reads. -/
structure Instance where
  cluster : String
  username : String
  password : String
  tags : Option (List String)
  timeout : Option Int
  deriving DecidableEq

/-- Lines 50-51 of `check`:
`tags = instance.get('tags', []); tags.append('cluster:...')`.
When the instance HAS a tags key, `instance.get` returns the
instance's own list object and `append` mutates it in place, so the
instance leaves the call with the cluster tag appended; when the key
is absent, `get` returns a fresh list and the instance is untouched.
Returns the (possibly mutated) instance and the tag list used for the
tick. -/
def checkTagsStep (inst : Instance) : Instance × List String :=
  let clusterTag := "cluster:" ++ inst.cluster
  match inst.tags with
  | some ts => ({ inst with tags := some (ts ++ [clusterTag]) }, ts ++ [clusterTag])
  | none => (inst, [clusterTag])

/-- The observable outcome of one `check(instance)` tick: the instance
as it is left after the call, the service checks emitted, and either
the metrics-path result or the exception the tick raised. -/
structure CheckResult where
  inst : Instance
  serviceChecks : List ServiceCheck
  outcome : Except PyExn TickResult

/-- Embedding of `check(self, instance)`: validate (the typed `Instance` carries the
required fields by construction), build the tag list, run
`check_connection` (whose re-raised failure aborts the tick), then run
`get_status_code_data` with the same tag list.  The two HTTP calls are
abstracted by their outcomes `connFetch` and `dataFetch`. -/
def check (inst : Instance) (connFetch dataFetch : Except PyExn (Option StatsData))
    (last_timestamps : Ledger) : CheckResult :=
  let tagged := checkTagsStep inst
  match check_connection (build_url "uptime" inst.username inst.cluster) connFetch tagged.2 with
  | (scs, some e) => ⟨tagged.1, scs, .error e⟩
  | (scs, none) =>
      ⟨tagged.1, scs,
        get_status_code_data last_timestamps
          (build_url "rate/status_code" inst.username inst.cluster) dataFetch
          (some tagged.2)⟩

/-- The per-datapoint step viewed over a flattened list of
(metric name, datapoint) pairs; used to reason about the two nested
loops of `record_data` as one fold. -/
abbrev flatStep (metric_tags : List String) (st : Ledger × List Gauge)
    (p : String × Datapoint) : Ledger × List Gauge :=
  recordDatapoint p.1 metric_tags st p.2

/-- The flattened (metric name, datapoint) pairs that the two nested
loops of `record_data` visit, in visiting order. -/
def targetPairs (pfx : String) (stat_name_fn : String → String) :
    List TargetResponse → List (String × Datapoint)
  | [] => []
  | tr :: rest =>
      tr.datapoints.map (fun dp => (pfx ++ "." ++ stat_name_fn tr.target, dp))
        ++ targetPairs pfx stat_name_fn rest

/-- The arguments of one `record_data` call other than the endpoint
name (the repository's only call site fixes the endpoint name to
'status_code' for the life of the process). -/
structure Call where
  data : StatsData
  stat_name_fn : String → String
  tags : Option (List String)

/-- Run a sequence of `record_data` calls with a fixed endpoint name,
starting from the ledger `L`, keeping only the ledger. -/
def runCallsFrom (endpoint_name : String) (L : Ledger) : List Call → Ledger
  | [] => L
  | c :: rest =>
      runCallsFrom endpoint_name
        (record_data L c.data endpoint_name c.stat_name_fn c.tags).1 rest

/-- Run a sequence of `record_data` calls with a fixed endpoint name
from the empty ledger of a fresh process. -/
def runCalls (endpoint_name : String) (calls : List Call) : Ledger :=
  runCallsFrom endpoint_name [] calls

example : stripFirstToken "GET /a" = "/a" := by decide
example : stripFirstToken "nospace" = "nospace" := by decide
example : stripFirstToken "a  b" = " b" := by decide

example :
    record_data [] ⟨100, [⟨"GET /a", [⟨some 5, 90⟩]⟩]⟩ "status_code" stripFirstToken none
      = ([("cloudant.status_code./a", 90)], [⟨"cloudant.status_code./a", 5, [], 90⟩]) := by
  decide

/-! ### Ledger lemmas -/

/-- Looking up the key just inserted yields the inserted epoch. -/
lemma ledgerLookup_insert_self (l : Ledger) (k : String) (v : Int) :
    ledgerLookup (ledgerInsert l k v) k = some v := by
  induction l with
  | nil => simp [ledgerInsert, ledgerLookup]
  | cons p rest ih =>
      obtain ⟨a, b⟩ := p
      by_cases h : a = k
      · simp [ledgerInsert, h, ledgerLookup]
      · simp [ledgerInsert, h, ledgerLookup, ih]

/-- Inserting one key leaves lookups of other keys unchanged. -/
lemma ledgerLookup_insert_ne (l : Ledger) {k k' : String} (v : Int) (h : k' ≠ k) :
    ledgerLookup (ledgerInsert l k v) k' = ledgerLookup l k' := by
  induction l with
  | nil => simp [ledgerInsert, ledgerLookup, Ne.symm h]
  | cons p rest ih =>
      obtain ⟨a, b⟩ := p
      by_cases hak : a = k
      · subst hak
        simp [ledgerInsert, ledgerLookup, Ne.symm h]
      · simp [ledgerInsert, hak, ledgerLookup, ih]

/-- A successful lookup returns an entry of the ledger. -/
lemma ledgerLookup_mem {l : Ledger} {k : String} {v : Int}
    (h : ledgerLookup l k = some v) : (k, v) ∈ l := by
  induction l with
  | nil => cases h
  | cons p rest ih =>
      obtain ⟨a, b⟩ := p
      by_cases hak : a = k
      · subst hak
        simp [ledgerLookup] at h
        simp [h]
      · simp [ledgerLookup, hak] at h
        exact List.mem_cons_of_mem _ (ih h)

/-- A key of the ledger after an insert was a key before, or is the
inserted key. -/
lemma mem_keys_insert {l : Ledger} {k k' : String} {v : Int}
    (h : k' ∈ ledgerKeys (ledgerInsert l k v)) : k' ∈ ledgerKeys l ∨ k' = k := by
  induction l with
  | nil =>
      simp [ledgerInsert, ledgerKeys] at h
      exact Or.inr h
  | cons p rest ih =>
      obtain ⟨a, b⟩ := p
      by_cases hak : a = k
      · rw [show ledgerInsert ((a, b) :: rest) k v = (k, v) :: rest by
          simp [ledgerInsert, hak]] at h
        simp only [ledgerKeys, List.map_cons, List.mem_cons] at h ⊢
        rcases h with h | h
        · exact Or.inr h
        · exact Or.inl (Or.inr h)
      · rw [show ledgerInsert ((a, b) :: rest) k v = (a, b) :: ledgerInsert rest k v by
          simp [ledgerInsert, hak]] at h
        simp only [ledgerKeys, List.map_cons, List.mem_cons] at h ⊢
        rcases h with h | h
        · exact Or.inl (Or.inl h)
        · rcases ih h with h' | h'
          · exact Or.inl (Or.inr h')
          · exact Or.inr h'

/-- A key absent from the key list looks up to None. -/
lemma ledgerLookup_eq_none {l : Ledger} {k : String} (h : k ∉ ledgerKeys l) :
    ledgerLookup l k = none := by
  induction l with
  | nil => rfl
  | cons p rest ih =>
      obtain ⟨a, b⟩ := p
      simp only [ledgerKeys, List.map_cons, List.mem_cons, not_or] at h
      simp only [ledgerLookup, if_neg (Ne.symm h.1)]
      exact ih h.2

/-! ### Characterizations of the dedup predicate -/

/-- The dedup predicate holds iff the key is absent, or its stored
epoch is 0 (Python falsiness) or older than the offered epoch. -/
lemma should_record_data_true_iff {l : Ledger} {k : String} {e : Int} :
    should_record_data l k e = true ↔
      ledgerLookup l k = none ∨
        ∃ m, ledgerLookup l k = some m ∧ (m = 0 ∨ m < e) := by
  unfold should_record_data
  cases h : ledgerLookup l k <;> simp [h]

/-- The dedup predicate fails iff the key stores a nonzero epoch at
least as new as the offered epoch. -/
lemma should_record_data_false_iff {l : Ledger} {k : String} {e : Int} :
    should_record_data l k e = false ↔
      ∃ m, ledgerLookup l k = some m ∧ m ≠ 0 ∧ e ≤ m := by
  unfold should_record_data
  cases h : ledgerLookup l k <;> simp [h, not_lt]

/-! ### Flattening the two nested loops of record_data -/

/-- Folding the flat step over datapoints paired with one fixed metric
name is the inner loop over those datapoints. -/
lemma foldl_flatStep_map (n : String) (mt : List String) (dps : List Datapoint) :
    ∀ st, (dps.map (fun dp => (n, dp))).foldl (flatStep mt) st
      = dps.foldl (recordDatapoint n mt) st := by
  induction dps with
  | nil => intro st; rfl
  | cons dp rest ih =>
      intro st
      simp only [List.map_cons, List.foldl_cons]
      exact ih _

/-- The outer loop over target responses is the flat fold over the
flattened (metric name, datapoint) pairs. -/
lemma foldl_recordTarget_eq_flat (pfx : String) (f : String → String)
    (mt : List String) (trs : List TargetResponse) :
    ∀ st, trs.foldl (recordTarget pfx f mt) st
      = (targetPairs pfx f trs).foldl (flatStep mt) st := by
  induction trs with
  | nil => intro st; rfl
  | cons tr rest ih =>
      intro st
      simp only [List.foldl_cons, targetPairs, List.foldl_append]
      rw [foldl_flatStep_map]
      exact ih _

/-- `record_data` in terms of the batch gate and the flat fold. -/
lemma record_data_eq_flat (L : Ledger) (d : StatsData) (en : String)
    (f : String → String) (t : Option (List String)) :
    record_data L d en f t
      = if should_record_data L ("cloudant." ++ en) d.endEpoch then
          (targetPairs ("cloudant." ++ en) f d.target_responses).foldl
            (flatStep (t.getD [])) (L, [])
        else (L, []) := by
  unfold record_data
  by_cases h : should_record_data L ("cloudant." ++ en) d.endEpoch = true <;>
    simp [h, foldl_recordTarget_eq_flat]

/-- Membership in the flattened pair list, in terms of the original
target responses. -/
lemma mem_targetPairs {pfx : String} {f : String → String}
    {trs : List TargetResponse} {p : String × Datapoint} :
    p ∈ targetPairs pfx f trs ↔
      ∃ tr, tr ∈ trs ∧ p.1 = pfx ++ "." ++ f tr.target ∧ p.2 ∈ tr.datapoints := by
  obtain ⟨n, dp⟩ := p
  induction trs with
  | nil => simp [targetPairs]
  | cons tr rest ih =>
      simp only [targetPairs, List.mem_append, List.mem_map, List.mem_cons, ih,
        Prod.mk.injEq]
      constructor
      · rintro (⟨dp', hdp', h1, h2⟩ | ⟨tr', htr', h1, h2⟩)
        · exact ⟨tr, Or.inl rfl, h1.symm, h2 ▸ hdp'⟩
        · exact ⟨tr', Or.inr htr', h1, h2⟩
      · rintro ⟨tr', rfl | htr', h1, h2⟩
        · exact Or.inl ⟨dp, h2, h1.symm, rfl⟩
        · exact Or.inr ⟨tr', htr', h1, h2⟩

/-! ### Step lemmas about one datapoint -/

/-- One datapoint step only writes the metric name it processes. -/
lemma recordDatapoint_keys {n : String} {mt : List String}
    {st : Ledger × List Gauge} {dp : Datapoint} {k : String}
    (h : k ∈ ledgerKeys (recordDatapoint n mt st dp).1) :
    k ∈ ledgerKeys st.1 ∨ k = n := by
  cases hv : dp.value with
  | none =>
      rw [show recordDatapoint n mt st dp = st by simp [recordDatapoint, hv]] at h
      exact Or.inl h
  | some v =>
      by_cases hs : should_record_data st.1 n dp.epoch = true
      · rw [show recordDatapoint n mt st dp
            = (ledgerInsert st.1 n dp.epoch, st.2 ++ [⟨n, v, mt, dp.epoch⟩]) by
          simp [recordDatapoint, hv, hs]] at h
        exact mem_keys_insert h
      · rw [show recordDatapoint n mt st dp = st by
          simp [recordDatapoint, hv, hs]] at h
        exact Or.inl h

/-- One datapoint step never lowers, and never zeroes, a stored epoch
that was nonzero — provided the datapoint's own epoch is nonzero. -/
lemma recordDatapoint_preserve {n : String} {mt : List String}
    {st : Ledger × List Gauge} {dp : Datapoint} (hdp : dp.epoch ≠ 0)
    {k : String} {m : Int} (h : ledgerLookup st.1 k = some m) (hm : m ≠ 0) :
    ∃ m', ledgerLookup (recordDatapoint n mt st dp).1 k = some m'
      ∧ m ≤ m' ∧ m' ≠ 0 := by
  cases hv : dp.value with
  | none =>
      rw [show recordDatapoint n mt st dp = st by simp [recordDatapoint, hv]]
      exact ⟨m, h, le_refl m, hm⟩
  | some v =>
      by_cases hs : should_record_data st.1 n dp.epoch = true
      · rw [show recordDatapoint n mt st dp
            = (ledgerInsert st.1 n dp.epoch, st.2 ++ [⟨n, v, mt, dp.epoch⟩]) by
          simp [recordDatapoint, hv, hs]]
        by_cases hk : n = k
        · subst hk
          refine ⟨dp.epoch, ledgerLookup_insert_self _ _ _, ?_, hdp⟩
          rcases should_record_data_true_iff.mp hs with hnone | ⟨m₂, hm₂, hor⟩
          · rw [h] at hnone; cases hnone
          · rw [h] at hm₂
            injection hm₂ with hm₂
            subst hm₂
            rcases hor with h0 | hlt
            · exact absurd h0 hm
            · exact le_of_lt hlt
        · rw [show ((ledgerInsert st.1 n dp.epoch, st.2 ++ [⟨n, v, mt, dp.epoch⟩])
              : Ledger × List Gauge).1 = ledgerInsert st.1 n dp.epoch from rfl,
            ledgerLookup_insert_ne st.1 dp.epoch (Ne.symm hk)]
          exact ⟨m, h, le_refl m, hm⟩
      · rw [show recordDatapoint n mt st dp = st by simp [recordDatapoint, hv, hs]]
        exact ⟨m, h, le_refl m, hm⟩

/-- One datapoint step is a no-op when the value is None or when the
ledger already stores a nonzero epoch at least as new. -/
lemma recordDatapoint_noop {n : String} {mt : List String}
    {st : Ledger × List Gauge} {dp : Datapoint}
    (h : dp.value.isSome = true →
      ∃ m, ledgerLookup st.1 n = some m ∧ m ≠ 0 ∧ dp.epoch ≤ m) :
    recordDatapoint n mt st dp = st := by
  cases hv : dp.value with
  | none => simp [recordDatapoint, hv]
  | some v =>
      obtain ⟨m, hm, h0, hle⟩ := h (by simp [hv])
      have hs : should_record_data st.1 n dp.epoch = false :=
        should_record_data_false_iff.mpr ⟨m, hm, h0, hle⟩
      simp [recordDatapoint, hv, hs]

/-- After a step on a non-None datapoint with nonzero epoch, the
ledger stores under its metric name a nonzero epoch at least as new
as the datapoint's. -/
lemma recordDatapoint_covers {n : String} {mt : List String}
    {st : Ledger × List Gauge} {dp : Datapoint} (hdp : dp.epoch ≠ 0)
    (hv : dp.value.isSome = true) :
    ∃ m, ledgerLookup (recordDatapoint n mt st dp).1 n = some m
      ∧ m ≠ 0 ∧ dp.epoch ≤ m := by
  obtain ⟨v, hv'⟩ := Option.isSome_iff_exists.mp hv
  by_cases hs : should_record_data st.1 n dp.epoch = true
  · refine ⟨dp.epoch, ?_, hdp, le_refl _⟩
    rw [show recordDatapoint n mt st dp
        = (ledgerInsert st.1 n dp.epoch, st.2 ++ [⟨n, v, mt, dp.epoch⟩]) by
      simp [recordDatapoint, hv', hs]]
    exact ledgerLookup_insert_self _ _ _
  · have hs' : should_record_data st.1 n dp.epoch = false := by
      revert hs; cases should_record_data st.1 n dp.epoch <;> simp
    obtain ⟨m, hm, h0, hle⟩ := should_record_data_false_iff.mp hs'
    refine ⟨m, ?_, h0, hle⟩
    rw [show recordDatapoint n mt st dp = st by simp [recordDatapoint, hv', hs']]
    exact hm

/-- Every gauge present after one step was present before, or records
exactly this step's datapoint, which then passed the dedup check. -/
lemma recordDatapoint_provenance {n : String} {mt : List String}
    {st : Ledger × List Gauge} {dp : Datapoint} {g : Gauge}
    (h : g ∈ (recordDatapoint n mt st dp).2) :
    g ∈ st.2 ∨
      (dp.value = some g.value ∧ dp.epoch = g.timestamp ∧ g.name = n
        ∧ g.tags = mt ∧ should_record_data st.1 n dp.epoch = true) := by
  cases hv : dp.value with
  | none =>
      rw [show recordDatapoint n mt st dp = st by simp [recordDatapoint, hv]] at h
      exact Or.inl h
  | some v =>
      by_cases hs : should_record_data st.1 n dp.epoch = true
      · rw [show recordDatapoint n mt st dp
            = (ledgerInsert st.1 n dp.epoch, st.2 ++ [⟨n, v, mt, dp.epoch⟩]) by
          simp [recordDatapoint, hv, hs]] at h
        rcases List.mem_append.mp h with h | h
        · exact Or.inl h
        · rcases List.mem_singleton.mp h with rfl
          exact Or.inr ⟨rfl, rfl, rfl, rfl, hs⟩
      · rw [show recordDatapoint n mt st dp = st by
          simp [recordDatapoint, hv, hs]] at h
        exact Or.inl h

/-! ### Invariants of the flat fold -/

/-- Keys present after the fold were present before, or are among the
metric names of the processed pairs. -/
lemma flatFold_keys {mt : List String} :
    ∀ (ps : List (String × Datapoint)) (st : Ledger × List Gauge) (k : String),
      k ∈ ledgerKeys (ps.foldl (flatStep mt) st).1 →
      k ∈ ledgerKeys st.1 ∨ ∃ p, p ∈ ps ∧ k = p.1 := by
  intro ps
  induction ps with
  | nil => intro st k h; exact Or.inl h
  | cons p rest ih =>
      intro st k h
      rw [List.foldl_cons] at h
      rcases ih (flatStep mt st p) k h with h' | ⟨q, hq, rfl⟩
      · rcases recordDatapoint_keys h' with h'' | rfl
        · exact Or.inl h''
        · exact Or.inr ⟨p, List.mem_cons_self _ _, rfl⟩
      · exact Or.inr ⟨q, List.mem_cons_of_mem _ hq, rfl⟩

/-- The fold never lowers, and never zeroes, a stored nonzero epoch,
provided all processed epochs are nonzero. -/
lemma flatFold_preserve {mt : List String} :
    ∀ (ps : List (String × Datapoint)) (st : Ledger × List Gauge),
      (∀ p ∈ ps, p.2.epoch ≠ 0) →
      ∀ k m, ledgerLookup st.1 k = some m → m ≠ 0 →
        ∃ m', ledgerLookup (ps.foldl (flatStep mt) st).1 k = some m'
          ∧ m ≤ m' ∧ m' ≠ 0 := by
  intro ps
  induction ps with
  | nil => intro st _ k m h hm; exact ⟨m, h, le_refl m, hm⟩
  | cons p rest ih =>
      intro st hps k m h hm
      obtain ⟨m₁, h1, h2, h3⟩ :=
        @recordDatapoint_preserve p.1 mt st p.2 (hps p (List.mem_cons_self _ _)) k m h hm
      obtain ⟨m', h1', h2', h3'⟩ :=
        ih (flatStep mt st p) (fun q hq => hps q (List.mem_cons_of_mem _ hq)) k m₁ h1 h3
      exact ⟨m', by rw [List.foldl_cons]; exact h1', le_trans h2 h2', h3'⟩

/-- The whole fold is a no-op when, for every non-None datapoint, the
ledger already stores a nonzero epoch at least as new under its
metric name. -/
lemma flatFold_noop {mt : List String} :
    ∀ (ps : List (String × Datapoint)) (st : Ledger × List Gauge),
      (∀ p ∈ ps, p.2.value.isSome = true →
        ∃ m, ledgerLookup st.1 p.1 = some m ∧ m ≠ 0 ∧ p.2.epoch ≤ m) →
      ps.foldl (flatStep mt) st = st := by
  intro ps
  induction ps with
  | nil => intro st _; rfl
  | cons p rest ih =>
      intro st h
      have hstep : flatStep mt st p = st :=
        recordDatapoint_noop (h p (List.mem_cons_self _ _))
      rw [List.foldl_cons, hstep]
      exact ih st (fun q hq => h q (List.mem_cons_of_mem _ hq))

/-- After the fold, every processed non-None datapoint is covered: the
ledger stores under its metric name a nonzero epoch at least as new as
the datapoint's — provided all processed epochs are nonzero. -/
lemma flatFold_covers {mt : List String} :
    ∀ (ps : List (String × Datapoint)) (st : Ledger × List Gauge),
      (∀ p ∈ ps, p.2.epoch ≠ 0) →
      ∀ q ∈ ps, q.2.value.isSome = true →
        ∃ m, ledgerLookup (ps.foldl (flatStep mt) st).1 q.1 = some m
          ∧ m ≠ 0 ∧ q.2.epoch ≤ m := by
  intro ps
  induction ps with
  | nil => intro st _ q hq; exact absurd hq (List.not_mem_nil _)
  | cons p rest ih =>
      intro st hps q hq hv
      have hrest : ∀ r ∈ rest, r.2.epoch ≠ 0 :=
        fun r hr => hps r (List.mem_cons_of_mem _ hr)
      rw [List.foldl_cons]
      rcases List.mem_cons.mp hq with rfl | hq'
      · obtain ⟨m, h1, h2, h3⟩ :=
          @recordDatapoint_covers q.1 mt st q.2 (hps q (List.mem_cons_self _ _)) hv
        obtain ⟨m', h1', h2', h3'⟩ :=
          flatFold_preserve rest (flatStep mt st q) hrest q.1 m h1 h2
        exact ⟨m', h1', h3', le_trans h3 h2'⟩
      · exact ih (flatStep mt st p) hrest q hq' hv

/-- Every gauge present after the fold was present before, or records
one of the processed datapoints (with a non-None value). -/
lemma flatFold_provenance {mt : List String} :
    ∀ (ps : List (String × Datapoint)) (st : Ledger × List Gauge) (g : Gauge),
      g ∈ (ps.foldl (flatStep mt) st).2 →
      g ∈ st.2 ∨ ∃ p, p ∈ ps ∧ p.2.value = some g.value
        ∧ p.2.epoch = g.timestamp ∧ g.name = p.1 := by
  intro ps
  induction ps with
  | nil => intro st g h; exact Or.inl h
  | cons p rest ih =>
      intro st g h
      rw [List.foldl_cons] at h
      rcases ih (flatStep mt st p) g h with h' | ⟨q, hq, hfacts⟩
      · rcases recordDatapoint_provenance h' with h'' | ⟨f1, f2, f3, _, _⟩
        · exact Or.inl h''
        · exact Or.inr ⟨p, List.mem_cons_self _ _, f1, f2, f3⟩
      · exact Or.inr ⟨q, List.mem_cons_of_mem _ hq, hfacts⟩

/-- Combined invariant for monotonicity and emission freshness: with a
reference ledger `L` whose entries are dominated by the running state
with nonzero epochs, the fold keeps that domination, and every emitted
gauge is strictly newer than the epoch `L` stored for its metric
name — provided all processed epochs are nonzero. -/
lemma flatFold_gauge_bound {L : Ledger} {mt : List String} :
    ∀ (ps : List (String × Datapoint)) (st : Ledger × List Gauge),
      (∀ p ∈ ps, p.2.epoch ≠ 0) →
      (∀ k m, ledgerLookup L k = some m →
        ∃ m', ledgerLookup st.1 k = some m' ∧ m ≤ m' ∧ m' ≠ 0) →
      (∀ g ∈ st.2, ∀ E, ledgerLookup L g.name = some E → E < g.timestamp) →
      (∀ k m, ledgerLookup L k = some m →
        ∃ m', ledgerLookup (ps.foldl (flatStep mt) st).1 k = some m'
          ∧ m ≤ m' ∧ m' ≠ 0) ∧
      (∀ g ∈ (ps.foldl (flatStep mt) st).2, ∀ E,
        ledgerLookup L g.name = some E → E < g.timestamp) := by
  intro ps
  induction ps with
  | nil => intro st _ h1 h2; exact ⟨h1, h2⟩
  | cons p rest ih =>
      intro st hps h1 h2
      have hp := hps p (List.mem_cons_self _ _)
      have hrest : ∀ r ∈ rest, r.2.epoch ≠ 0 :=
        fun r hr => hps r (List.mem_cons_of_mem _ hr)
      have h1' : ∀ k m, ledgerLookup L k = some m →
          ∃ m', ledgerLookup (flatStep mt st p).1 k = some m' ∧ m ≤ m' ∧ m' ≠ 0 := by
        intro k m hkm
        obtain ⟨m', hm', hle, h0⟩ := h1 k m hkm
        obtain ⟨m'', hm'', hle', h0'⟩ :=
          @recordDatapoint_preserve p.1 mt st p.2 hp k m' hm' h0
        exact ⟨m'', hm'', le_trans hle hle', h0'⟩
      have h2' : ∀ g ∈ (flatStep mt st p).2, ∀ E,
          ledgerLookup L g.name = some E → E < g.timestamp := by
        intro g hg E hE
        rcases recordDatapoint_provenance hg with hg' | ⟨_, f2, f3, _, f5⟩
        · exact h2 g hg' E hE
        · rw [f3] at hE
          obtain ⟨m', hm', hle, h0⟩ := h1 p.1 E hE
          rcases should_record_data_true_iff.mp f5 with hnone | ⟨m₂, hm₂, hor⟩
          · rw [hm'] at hnone; cases hnone
          · rw [hm'] at hm₂
            injection hm₂ with hm₂
            subst hm₂
            rcases hor with h0' | hlt
            · exact absurd h0' h0
            · rw [← f2]; exact lt_of_le_of_lt hle hlt
      rw [List.foldl_cons]
      exact ih (flatStep mt st p) hrest h1' h2'

/-! ### String facts and ledger reachability -/

/-- Appending strings appends their character data. -/
lemma string_data_append (x y : String) : (x ++ y).data = x.data ++ y.data := by
  obtain ⟨xd⟩ := x
  obtain ⟨yd⟩ := y
  rfl

/-- A metric name built from a batch key and a dot-separated suffix is
never the batch key itself. -/
lemma ne_append_dot (a s : String) : a ++ "." ++ s ≠ a := by
  intro h
  have hd := congrArg String.data h
  rw [string_data_append, string_data_append] at hd
  have hlen := congrArg List.length hd
  rw [List.length_append, List.length_append] at hlen
  have hdot : ("." : String).data.length = 1 := by decide
  rw [hdot] at hlen
  omega

/-- Keys present after one `record_data` call were present before, or
extend this call's batch key by a dot and a suffix. -/
lemma record_data_keys {L : Ledger} {d : StatsData} {en : String}
    {f : String → String} {t : Option (List String)} {k : String}
    (h : k ∈ ledgerKeys (record_data L d en f t).1) :
    k ∈ ledgerKeys L ∨ ∃ s, k = ("cloudant." ++ en) ++ "." ++ s := by
  rw [record_data_eq_flat] at h
  by_cases hg : should_record_data L ("cloudant." ++ en) d.endEpoch = true
  · rw [if_pos hg] at h
    rcases flatFold_keys _ (L, []) k h with h' | ⟨p, hp, rfl⟩
    · exact Or.inl h'
    · obtain ⟨tr, _, heq, _⟩ := mem_targetPairs.mp hp
      exact Or.inr ⟨f tr.target, heq⟩
  · rw [if_neg hg] at h
    exact Or.inl h

/-- Running any sequence of `record_data` calls with a fixed endpoint
name only ever writes keys that extend the batch key. -/
lemma runCallsFrom_keys (en : String) :
    ∀ (calls : List Call) (L : Ledger),
      (∀ k ∈ ledgerKeys L, ∃ s, k = ("cloudant." ++ en) ++ "." ++ s) →
      ∀ k ∈ ledgerKeys (runCallsFrom en L calls),
        ∃ s, k = ("cloudant." ++ en) ++ "." ++ s := by
  intro calls
  induction calls with
  | nil => intro L hL k hk; exact hL k hk
  | cons c rest ih =>
      intro L hL k hk
      exact ih _ (fun k' hk' => (record_data_keys hk').elim (hL k') id) k hk

/-! ### Claim theorems -/

/-- C1, counterexample: in the claimed scenario (empty ledger, data
`{end: 100, target_responses: [{target: "GET /a", datapoints: [[5, 90]]}]}`,
endpoint name "status_code", first-space-stripping transform) exactly
the claimed gauge is emitted, but afterwards the ledger does NOT map
`cloudant.status_code` to 100 — `record_data` never writes the batch
key — refuting the claim's ledger clause. -/
theorem c1_counterexample :
    record_data [] ⟨100, [⟨"GET /a", [⟨some 5, 90⟩]⟩]⟩ "status_code" stripFirstToken none
        = ([("cloudant.status_code./a", 90)], [⟨"cloudant.status_code./a", 5, [], 90⟩])
      ∧ ledgerLookup (record_data [] ⟨100, [⟨"GET /a", [⟨some 5, 90⟩]⟩]⟩ "status_code"
          stripFirstToken none).1 "cloudant.status_code" ≠ some 100 := by
  decide

/-- C1, amended: the scenario emits exactly one gauge
`cloudant.status_code./a` with value 5 and timestamp 90, and afterwards
the ledger maps `cloudant.status_code./a` to 90 and holds no entry for
`cloudant.status_code`. -/
theorem c1_amended_scenario :
    record_data [] ⟨100, [⟨"GET /a", [⟨some 5, 90⟩]⟩]⟩ "status_code" stripFirstToken none
        = ([("cloudant.status_code./a", 90)], [⟨"cloudant.status_code./a", 5, [], 90⟩])
      ∧ ledgerLookup (record_data [] ⟨100, [⟨"GET /a", [⟨some 5, 90⟩]⟩]⟩ "status_code"
          stripFirstToken none).1 "cloudant.status_code./a" = some 90
      ∧ ledgerLookup (record_data [] ⟨100, [⟨"GET /a", [⟨some 5, 90⟩]⟩]⟩ "status_code"
          stripFirstToken none).1 "cloudant.status_code" = none := by
  decide

/-- C2, counterexample: for a key whose stored epoch is E = 0 and
epoch = 0, the claim says `_should_record_data` returns true iff
epoch > E, i.e. false here; the code returns true (Python truthiness
of the stored 0). -/
theorem c2_counterexample :
    ledgerLookup [("cloudant.status_code./a", 0)] "cloudant.status_code./a" = some 0
      ∧ should_record_data [("cloudant.status_code./a", 0)] "cloudant.status_code./a" 0
          = true
      ∧ ¬((0 : Int) > 0) := by
  decide

/-- C2, amended: `_should_record_data(key, epoch)` returns true if the
key is absent from the ledger, and for a key whose stored epoch is E it
returns true iff E = 0 or epoch > E. -/
theorem c2_amended : ∀ (l : Ledger) (k : String) (e : Int),
    (ledgerLookup l k = none → should_record_data l k e = true) ∧
    ∀ E, ledgerLookup l k = some E →
      (should_record_data l k e = true ↔ (E = 0 ∨ e > E)) := by
  intro l k e
  refine ⟨fun h => ?_, fun E h => ?_⟩
  · simp [should_record_data, h]
  · simp [should_record_data, h, gt_iff_lt]

/-- C2, witness: the amended characterization at two concrete inputs,
an absent key and a stored epoch 90 with a newer epoch 95. -/
theorem c2_amended_witness :
    should_record_data [] "cloudant.status_code" 100 = true
      ∧ should_record_data [("cloudant.status_code./a", 90)] "cloudant.status_code./a" 95
          = true :=
  ⟨(c2_amended [] "cloudant.status_code" 100).1 (by decide),
   ((c2_amended [("cloudant.status_code./a", 90)] "cloudant.status_code./a" 95).2 90
      (by decide)).mpr (Or.inr (by decide))⟩

/-- C3: over any sequence of `record_data` calls with the fixed
endpoint name of the repository's call site, starting from the empty
ledger of a fresh process, every ledger key has the form
batch-key ++ "." ++ suffix (so the batch key itself is never written),
and consequently the batch-level staleness check at the start of
`record_data` passes on every call, whatever the end epoch. -/
theorem c3_no_write_to_batch_key :
    ∀ (endpoint_name : String) (calls : List Call),
      (∀ k ∈ ledgerKeys (runCalls endpoint_name calls),
        ∃ s, k = ("cloudant." ++ endpoint_name) ++ "." ++ s) ∧
      ∀ e : Int, should_record_data (runCalls endpoint_name calls)
        ("cloudant." ++ endpoint_name) e = true := by
  intro en calls
  have hkeys : ∀ k ∈ ledgerKeys (runCalls en calls),
      ∃ s, k = ("cloudant." ++ en) ++ "." ++ s :=
    runCallsFrom_keys en calls [] (by intro k hk; simp [ledgerKeys] at hk)
  refine ⟨hkeys, fun e => ?_⟩
  have hnone : ledgerLookup (runCalls en calls) ("cloudant." ++ en) = none := by
    apply ledgerLookup_eq_none
    intro hmem
    obtain ⟨s, hs⟩ := hkeys _ hmem
    exact ne_append_dot ("cloudant." ++ en) s hs.symm
  simp [should_record_data, hnone]

/-- C3, witness: after one concrete call the only key extends the
batch key, and the batch gate still passes at the same end epoch. -/
theorem c3_witness :
    (∃ s, "cloudant.status_code./a" = ("cloudant." ++ "status_code") ++ "." ++ s)
      ∧ should_record_data
          (runCalls "status_code" [⟨⟨100, [⟨"GET /a", [⟨some 5, 90⟩]⟩]⟩,
            stripFirstToken, none⟩])
          ("cloudant." ++ "status_code") 100 = true :=
  ⟨(c3_no_write_to_batch_key "status_code"
      [⟨⟨100, [⟨"GET /a", [⟨some 5, 90⟩]⟩]⟩, stripFirstToken, none⟩]).1
      "cloudant.status_code./a" (by decide),
   (c3_no_write_to_batch_key "status_code"
      [⟨⟨100, [⟨"GET /a", [⟨some 5, 90⟩]⟩]⟩, stripFirstToken, none⟩]).2 100⟩

/-- C4, counterexample: with the prefix key stored at epoch E = 0 and
a response whose end (0) satisfies end <= E, the claim says zero
gauges are emitted; the code treats the stored 0 as absent, runs the
loops and emits a gauge. -/
theorem c4_counterexample :
    ledgerLookup [("cloudant.status_code", 0)] "cloudant.status_code" = some 0
      ∧ (0 : Int) ≤ 0
      ∧ (record_data [("cloudant.status_code", 0)] ⟨0, [⟨"GET /a", [⟨some 5, 90⟩]⟩]⟩
          "status_code" stripFirstToken none).2 ≠ [] := by
  decide

/-- C4, amended: when the ledger maps the prefix key to a NONZERO
epoch E and the response's end is at most E, `record_data` emits no
gauge and returns the ledger unchanged, regardless of the individual
datapoints. -/
theorem c4_amended : ∀ (L : Ledger) (E : Int) (d : StatsData) (en : String)
    (f : String → String) (t : Option (List String)),
    ledgerLookup L ("cloudant." ++ en) = some E → E ≠ 0 → d.endEpoch ≤ E →
    record_data L d en f t = (L, []) := by
  intro L E d en f t h1 h2 h3
  have hs : should_record_data L ("cloudant." ++ en) d.endEpoch = false :=
    should_record_data_false_iff.mpr ⟨E, h1, h2, h3⟩
  rw [record_data_eq_flat, if_neg (by simp [hs])]

/-- C4, witness: the amended claim at a concrete stale batch
(stored prefix epoch 100, response end 100, a datapoint at epoch 90
that is individually fresh because its own key is absent). -/
theorem c4_amended_witness :
    record_data [("cloudant.status_code", 100)] ⟨100, [⟨"GET /a", [⟨some 5, 90⟩]⟩]⟩
        "status_code" stripFirstToken none
      = ([("cloudant.status_code", 100)], []) :=
  c4_amended [("cloudant.status_code", 100)] 100 ⟨100, [⟨"GET /a", [⟨some 5, 90⟩]⟩]⟩
    "status_code" stripFirstToken none (by decide) (by decide) (by decide)

/-- C5, counterexample: with the metric name stored at epoch 0 the
code treats the entry as absent, emits a datapoint at epoch -1 (which
does not strictly exceed the stored 0) and overwrites the stored epoch
with the smaller -1 — refuting both the monotonicity clause and the
emission-condition clause of the claim. -/
theorem c5_counterexample :
    ledgerLookup [("cloudant.status_code./a", 0)] "cloudant.status_code./a" = some 0
      ∧ record_data [("cloudant.status_code./a", 0)]
          ⟨100, [⟨"GET /a", [⟨some 5, -1⟩]⟩]⟩ "status_code" stripFirstToken none
        = ([("cloudant.status_code./a", -1)], [⟨"cloudant.status_code./a", 5, [], -1⟩])
      ∧ ¬((0 : Int) ≤ -1) ∧ ¬((-1 : Int) > 0) := by
  decide

/-- C5, amended: provided the ledger stores no zero epoch and no
datapoint epoch is zero, one `record_data` call never lowers a stored
epoch (so across calls stored epochs are monotonically non-decreasing),
and a gauge is emitted for a datapoint only if its epoch strictly
exceeds the epoch recorded for its metric name before the call, or no
prior epoch exists. -/
theorem c5_amended : ∀ (L : Ledger) (d : StatsData) (en : String)
    (f : String → String) (t : Option (List String)),
    (∀ p ∈ L, p.2 ≠ 0) →
    (∀ tr ∈ d.target_responses, ∀ dp ∈ tr.datapoints, dp.epoch ≠ 0) →
    (∀ k m, ledgerLookup L k = some m →
      ∃ m', ledgerLookup (record_data L d en f t).1 k = some m' ∧ m ≤ m') ∧
    (∀ g ∈ (record_data L d en f t).2, ∀ E,
      ledgerLookup L g.name = some E → E < g.timestamp) := by
  intro L d en f t hL hd
  rw [record_data_eq_flat]
  by_cases hg : should_record_data L ("cloudant." ++ en) d.endEpoch = true
  · rw [if_pos hg]
    have hps : ∀ p ∈ targetPairs ("cloudant." ++ en) f d.target_responses,
        p.2.epoch ≠ 0 := by
      intro p hp
      obtain ⟨tr, htr, _, hdp⟩ := mem_targetPairs.mp hp
      exact hd tr htr p.2 hdp
    have base1 : ∀ k m, ledgerLookup L k = some m →
        ∃ m', ledgerLookup ((L, ([] : List Gauge))).1 k = some m' ∧ m ≤ m' ∧ m' ≠ 0 :=
      fun k m h => ⟨m, h, le_refl m, hL (k, m) (ledgerLookup_mem h)⟩
    have base2 : ∀ g ∈ ((L, ([] : List Gauge))).2, ∀ E,
        ledgerLookup L g.name = some E → E < g.timestamp := by
      intro g hg'
      exact absurd hg' (List.not_mem_nil _)
    obtain ⟨r1, r2⟩ := @flatFold_gauge_bound L (t.getD [])
      (targetPairs ("cloudant." ++ en) f d.target_responses) (L, []) hps base1 base2
    exact ⟨fun k m h => (r1 k m h).imp (fun m' hm' => ⟨hm'.1, hm'.2.1⟩), r2⟩
  · rw [if_neg hg]
    exact ⟨fun k m h => ⟨m, h, le_refl m⟩,
      fun g hgg => absurd hgg (List.not_mem_nil _)⟩

/-- C5, witness: the amended monotonicity at a concrete call that
advances the stored epoch 50 of the only key. -/
theorem c5_amended_witness :
    ∃ m', ledgerLookup (record_data [("cloudant.status_code./a", 50)]
        ⟨100, [⟨"GET /a", [⟨some 5, 90⟩]⟩]⟩ "status_code" stripFirstToken none).1
      "cloudant.status_code./a" = some m' ∧ (50 : Int) ≤ m' :=
  (c5_amended [("cloudant.status_code./a", 50)] ⟨100, [⟨"GET /a", [⟨some 5, 90⟩]⟩]⟩
      "status_code" stripFirstToken none (by decide) (by decide)).1
    "cloudant.status_code./a" 50 (by decide)

/-- C6, counterexample: a batch containing a datapoint with epoch 0 is
re-emitted in full on the second identical call (the recorded epoch 0
is falsy, and the batch key is never recorded), refuting the claim
that the second pass emits nothing. -/
theorem c6_counterexample :
    (record_data (record_data [] ⟨100, [⟨"GET /a", [⟨some 5, 0⟩]⟩]⟩ "status_code"
          stripFirstToken none).1
        ⟨100, [⟨"GET /a", [⟨some 5, 0⟩]⟩]⟩ "status_code" stripFirstToken none).2 ≠ []
      ∧ (record_data (record_data [] ⟨100, [⟨"GET /a", [⟨some 5, 0⟩]⟩]⟩ "status_code"
          stripFirstToken none).1
        ⟨100, [⟨"GET /a", [⟨some 5, 0⟩]⟩]⟩ "status_code" stripFirstToken none).2
        = [⟨"cloudant.status_code./a", 5, [], 0⟩] := by
  decide

/-- C6, amended: for every response batch in which every datapoint
epoch is nonzero, feeding the identical batch to `record_data` a
second time emits zero gauge metrics, from any starting ledger. -/
theorem c6_amended : ∀ (L : Ledger) (d : StatsData) (en : String)
    (f : String → String) (t : Option (List String)),
    (∀ tr ∈ d.target_responses, ∀ dp ∈ tr.datapoints, dp.epoch ≠ 0) →
    (record_data (record_data L d en f t).1 d en f t).2 = [] := by
  intro L d en f t hd
  have hps : ∀ p ∈ targetPairs ("cloudant." ++ en) f d.target_responses,
      p.2.epoch ≠ 0 := by
    intro p hp
    obtain ⟨tr, htr, _, hdp⟩ := mem_targetPairs.mp hp
    exact hd tr htr p.2 hdp
  by_cases h1 : should_record_data L ("cloudant." ++ en) d.endEpoch = true
  · have hfirst : (record_data L d en f t).1
        = ((targetPairs ("cloudant." ++ en) f d.target_responses).foldl
            (flatStep (t.getD [])) (L, [])).1 := by
      rw [record_data_eq_flat, if_pos h1]
    rw [record_data_eq_flat ((record_data L d en f t).1) d en f t]
    by_cases h2 : should_record_data (record_data L d en f t).1 ("cloudant." ++ en)
        d.endEpoch = true
    · have hcov : ∀ p ∈ targetPairs ("cloudant." ++ en) f d.target_responses,
          p.2.value.isSome = true →
          ∃ m, ledgerLookup (((record_data L d en f t).1, ([] : List Gauge))).1 p.1
            = some m ∧ m ≠ 0 ∧ p.2.epoch ≤ m := by
        intro p hp hv
        rw [show (((record_data L d en f t).1, ([] : List Gauge))).1
            = (record_data L d en f t).1 from rfl, hfirst]
        exact flatFold_covers _ (L, []) hps p hp hv
      rw [if_pos h2, flatFold_noop _ _ hcov]
    · rw [if_neg h2]
  · have hfirst : record_data L d en f t = (L, []) := by
      rw [record_data_eq_flat, if_neg h1]
    have h1' : (record_data L d en f t).1 = L := by rw [hfirst]
    rw [h1', hfirst]

/-- C6, witness: the amended idempotence at a concrete batch with a
nonzero datapoint epoch. -/
theorem c6_amended_witness :
    (record_data (record_data [] ⟨100, [⟨"GET /a", [⟨some 5, 90⟩]⟩]⟩ "status_code"
          stripFirstToken none).1
        ⟨100, [⟨"GET /a", [⟨some 5, 90⟩]⟩]⟩ "status_code" stripFirstToken none).2 = [] :=
  c6_amended [] ⟨100, [⟨"GET /a", [⟨some 5, 90⟩]⟩]⟩ "status_code" stripFirstToken none
    (by decide)

/-- C7, code bug: when the metrics fetch succeeds with an empty
payload (JSON null, `data is None`), the claim and the source's own
"No overall stats? bail out now" comment call for a graceful no-op,
but the missing `return` lets control fall into
`record_data(None, ...)`, whose first statement `data['end']` raises a
TypeError, so the tick does not complete. -/
theorem c7_code_bug : ∀ (L : Ledger) (url : String) (t : Option (List String)),
    get_status_code_data L url (Except.ok none) t
      = Except.error (PyExn.typeError "NoneType object is not subscriptable") := by
  intro L url t
  rfl

/-- C8, code bug: `check` runs `tags = instance.get('tags', [])`
followed by `tags.append('cluster:...')`; when the instance has a tag
list, `get` returns that very list and `append` mutates it, so one
tick leaves the instance config with the cluster tag appended to its
tag list instead of unchanged. -/
theorem c8_code_bug :
    (check ⟨"c1", "u", "p", some ["env:prod"], none⟩
        (Except.ok (some ⟨100, []⟩)) (Except.ok (some ⟨100, []⟩)) []).inst.tags
      = some ["env:prod", "cluster:c1"]
    ∧ (check ⟨"c1", "u", "p", some ["env:prod"], none⟩
        (Except.ok (some ⟨100, []⟩)) (Except.ok (some ⟨100, []⟩)) []).inst
      ≠ ⟨"c1", "u", "p", some ["env:prod"], none⟩ := by
  decide

/-- C9: every `check_connection` call emits exactly one service check;
on a successful fetch it is OK with the success message and nothing is
raised, and on any failure it is CRITICAL with the error detail and
the original exception is re-raised to the caller. -/
theorem c9_one_service_check : ∀ (url : String)
    (fetch : Except PyExn (Option StatsData)) (tags : List String),
    ((check_connection url fetch tags).1.length = 1) ∧
    (∀ d, fetch = Except.ok d →
      check_connection url fetch tags
        = ([⟨SERVICE_CHECK_NAME, SCStatus.ok, tags,
             "Connection to " ++ url ++ " was successful"⟩], none)) ∧
    (∀ e, fetch = Except.error e →
      check_connection url fetch tags
        = ([⟨SERVICE_CHECK_NAME, SCStatus.critical, tags, criticalMessage url e⟩],
           some e)) := by
  intro url fetch tags
  refine ⟨?_, ?_, ?_⟩
  · cases fetch <;> rfl
  · intro d h
    subst h
    rfl
  · intro e h
    subst h
    rfl

/-- C9, witness: a concrete timed-out probe yields the single CRITICAL
service check with the timeout detail and re-raises the timeout. -/
theorem c9_witness :
    check_connection "https://u.cloudant.com/_api/v2/monitoring/uptime?cluster=c1"
        (Except.error (PyExn.timeout "timed out")) ["cluster:c1"]
      = ([⟨SERVICE_CHECK_NAME, SCStatus.critical, ["cluster:c1"],
           criticalMessage "https://u.cloudant.com/_api/v2/monitoring/uptime?cluster=c1"
             (PyExn.timeout "timed out")⟩],
         some (PyExn.timeout "timed out")) :=
  (c9_one_service_check "https://u.cloudant.com/_api/v2/monitoring/uptime?cluster=c1"
      (Except.error (PyExn.timeout "timed out")) ["cluster:c1"]).2.2
    (PyExn.timeout "timed out") rfl

/-- C10: every gauge `record_data` emits originates from a datapoint
of the response whose value is non-null (it carries that datapoint's
value and epoch and the metric name derived from its target), so a
null-valued datapoint is never emitted, however fresh its epoch. -/
theorem c10_null_never_emitted : ∀ (L : Ledger) (d : StatsData) (en : String)
    (f : String → String) (t : Option (List String)) (g : Gauge),
    g ∈ (record_data L d en f t).2 →
    ∃ tr, tr ∈ d.target_responses ∧ ∃ dp, dp ∈ tr.datapoints ∧
      dp.value = some g.value ∧ dp.epoch = g.timestamp ∧
      g.name = ("cloudant." ++ en) ++ "." ++ f tr.target := by
  intro L d en f t g hg
  rw [record_data_eq_flat] at hg
  by_cases h1 : should_record_data L ("cloudant." ++ en) d.endEpoch = true
  · rw [if_pos h1] at hg
    rcases flatFold_provenance _ (L, []) g hg with h | ⟨p, hp, f1, f2, f3⟩
    · exact absurd h (List.not_mem_nil _)
    · obtain ⟨tr, htr, heq, hdp⟩ := mem_targetPairs.mp hp
      exact ⟨tr, htr, p.2, hdp, f1, f2, by rw [f3, heq]⟩
  · rw [if_neg h1] at hg
    exact absurd hg (List.not_mem_nil _)

/-- C10, witness: the provenance of the one gauge emitted in the C1
scenario: it comes from the non-null datapoint [5, 90] of target
"GET /a". -/
theorem c10_witness :
    ∃ tr, tr ∈ (⟨100, [⟨"GET /a", [⟨some 5, 90⟩]⟩]⟩ : StatsData).target_responses ∧
      ∃ dp, dp ∈ tr.datapoints ∧
        dp.value = some (Gauge.mk "cloudant.status_code./a" 5 [] 90).value ∧
        dp.epoch = (Gauge.mk "cloudant.status_code./a" 5 [] 90).timestamp ∧
        (Gauge.mk "cloudant.status_code./a" 5 [] 90).name
          = ("cloudant." ++ "status_code") ++ "." ++ stripFirstToken tr.target :=
  c10_null_never_emitted [] ⟨100, [⟨"GET /a", [⟨some 5, 90⟩]⟩]⟩ "status_code"
    stripFirstToken none ⟨"cloudant.status_code./a", 5, [], 90⟩ (by decide)
